import Mathlib

/-!
Shallow embedding of the ssh2web SSH-2 client core, together with proofs
checking the natural-language specification against it.

Bytes are modelled as `Nat` (values < 256 wherever the source guarantees it),
byte buffers as `List Nat`.  JavaScript `Uint8Array` operations (`subarray`,
`slice`, `set`, `DataView` big-endian reads/writes) are translated to list
operations below.  Asynchronous methods are translated to pure functions since
the source serialises all the relevant operations.

External cryptographic primitives (AES block function reached through
WebCrypto, HMAC-SHA-256, SHA-256, signing, randomness) are abstract function
parameters: the repository's own code — CTR chaining, framing, MAC comparison,
sequence/IV state — is embedded faithfully from the source.
-/

namespace Ssh2Web

/-! ### Wire primitives (src/protocol/serialization.ts) -/

/-- `new DataView(out.buffer).setUint32(0, n, false)`: big-endian bytes of
`n` truncated to 32 bits. -/
def writeUint32 (n : Nat) : List Nat :=
  [n % 2 ^ 32 / 2 ^ 24, n % 2 ^ 24 / 2 ^ 16, n % 2 ^ 16 / 2 ^ 8, n % 2 ^ 8]

/-- `DataView.getUint32(0, false)` over the first four bytes. -/
def readUint32 (l : List Nat) : Nat :=
  l.getD 0 0 * 2 ^ 24 + l.getD 1 0 * 2 ^ 16 + l.getD 2 0 * 2 ^ 8 + l.getD 3 0

/-- `writeBytes`: 4-byte big-endian length prefix followed by the raw bytes. -/
def writeBytes (b : List Nat) : List Nat :=
  writeUint32 b.length ++ b

/-- UTF-8 bytes of an ASCII string (all string constants in the source are
ASCII, where UTF-8 bytes and code points coincide). -/
def ascii (s : String) : List Nat :=
  s.data.map Char.toNat

/-- `writeString` (TextEncoder + length prefix), for the ASCII strings the
source writes. -/
def writeStringB (s : String) : List Nat :=
  writeBytes (ascii s)

/-- `bigintToBytes` (src/protocol/serialization.ts): minimal big-endian
base-256 digits via the hex-string round-trip; `0` maps to `[0]`. -/
def natToBytesBE (n : Nat) : List Nat :=
  if h : n = 0 then [] else
    have : n / 256 < n := Nat.div_lt_self (Nat.pos_of_ne_zero h) (by norm_num)
    natToBytesBE (n / 256) ++ [n % 256]

def bigintToBytes (n : Nat) : List Nat :=
  if n = 0 then [0] else natToBytesBE n

/-- `writeBigintMpint`: the `neg` flag is computed and never applied, so the
value is encoded by absolute value; a leading zero byte is inserted when the
top bit of the first byte is set. -/
def writeBigintMpint (n : Int) : List Nat :=
  if n = 0 then writeBytes [] else
  let bytes := bigintToBytes n.natAbs
  let bytes := if (bytes.headD 0).testBit 7 then 0 :: bytes else bytes
  writeBytes bytes

/-- `writeByteMpint`: mpint encoding of a raw big-endian byte string. -/
def writeByteMpint (k : List Nat) : List Nat :=
  if k.length > 0 ∧ (k.headD 0).testBit 7 then writeBytes (0 :: k)
  else writeBytes k

/-- JavaScript `TypedArray.prototype.slice(start, stop)` index resolution:
negative indices count from the end, then clamp to `[0, len]`. -/
def jsIndex (len : Nat) (i : Int) : Nat :=
  if i < 0 then ((len : Int) + i).toNat else min i.toNat len

def jsSlice (data : List Nat) (start stop : Int) : List Nat :=
  (data.take (jsIndex data.length stop)).drop (jsIndex data.length start)

/-! ### Packet codec (src/protocol/codec.ts) -/

/-- Modelled from the spec: `src/domain/constants.ts` is not among the given
sources; §6 of the spec lists the observable constants. -/
def MIN_PADDING : Nat := 4
def AES_BLOCK_SIZE : Nat := 16
def HMAC_SHA256_SIZE : Nat := 32
def MAX_PACKET_SIZE : Nat := 35000

/-- `calculatePadding` (src/protocol/codec.ts). -/
def calculatePadding (payloadLen : Nat) (etm : Bool) : Nat :=
  if etm then
    MIN_PADDING + (AES_BLOCK_SIZE - (1 + payloadLen + MIN_PADDING) % AES_BLOCK_SIZE) % AES_BLOCK_SIZE
  else
    MIN_PADDING + (AES_BLOCK_SIZE - (5 + payloadLen + MIN_PADDING) % AES_BLOCK_SIZE) % AES_BLOCK_SIZE

/-- `buildPacket`: length word, padding length byte, payload, random padding.
`rand` stands for `crypto.getRandomValues`; its values are reduced mod 256 as
the runtime fills bytes. -/
def buildPacket (payload : List Nat) (etm : Bool) (rand : Nat → Nat) : List Nat :=
  let padLen := calculatePadding payload.length etm
  let plen := 1 + payload.length + padLen
  writeUint32 plen ++ [padLen] ++ payload ++ (List.range padLen).map (fun i => rand i % 256)

/-- `parsePacket`: `none` models the NeedMore signal (`null`). -/
def parsePacket (data : List Nat) : Option (List Nat × Nat) :=
  if data.length < 5 then none else
  let plen := readUint32 data
  if data.length < 4 + plen then none else
  let padLen := data.getD 4 0
  let payloadLen : Int := (plen : Int) - 1 - (padLen : Int)
  some (jsSlice data 5 (5 + payloadLen), 4 + plen)

/-! ### Facts about the codec -/

theorem writeUint32_length (n : Nat) : (writeUint32 n).length = 4 := rfl

theorem readUint32_writeUint32_prefix (n : Nat) (rest : List Nat) :
    readUint32 (writeUint32 n ++ rest) = n % 2 ^ 32 := by
  simp only [writeUint32, readUint32, List.cons_append, List.getD, List.get?,
    Option.getD_some, List.nil_append]
  omega

theorem calculatePadding_ge (payloadLen : Nat) (etm : Bool) :
    4 ≤ calculatePadding payloadLen etm := by
  cases etm <;> simp [calculatePadding, MIN_PADDING]

theorem calculatePadding_le (payloadLen : Nat) (etm : Bool) :
    calculatePadding payloadLen etm ≤ 19 := by
  cases etm <;>
    · simp only [calculatePadding, MIN_PADDING, AES_BLOCK_SIZE, if_true, if_false,
        Bool.false_eq_true, ite_false, ite_true]
      omega

theorem buildPacket_length (payload : List Nat) (etm : Bool) (rand : Nat → Nat) :
    (buildPacket payload etm rand).length
      = 5 + payload.length + calculatePadding payload.length etm := by
  simp [buildPacket, writeUint32]
  omega

theorem extract_middle (A B C : List Nat) :
    ((A ++ B ++ C).take (A.length + B.length)).drop A.length = B := by
  induction A with
  | nil => simp [List.take_left]
  | cons a A ih => simpa [Nat.succ_add] using ih

/-- C4 (packet round-trip): for payloads below `MAX_PACKET_SIZE − 256`,
`parsePacket` recovers the payload and consumes the whole built packet, in
both padding modes. -/
theorem packet_roundtrip (p : List Nat) (etm : Bool) (rand : Nat → Nat)
    (h : p.length ≤ MAX_PACKET_SIZE - 256) :
    parsePacket (buildPacket p etm rand) = some (p, (buildPacket p etm rand).length) := by
  have hble := calculatePadding_le p.length etm
  have hbge := calculatePadding_ge p.length etm
  have hmax : p.length ≤ 34744 := by simpa [MAX_PACKET_SIZE] using h
  set padLen := calculatePadding p.length etm with hpad
  set plen := 1 + p.length + padLen with hplen
  have hlen : (buildPacket p etm rand).length = 4 + plen := by
    rw [buildPacket_length]; omega
  have hdata : buildPacket p etm rand
      = writeUint32 plen ++ [padLen] ++ p
        ++ (List.range padLen).map (fun i => rand i % 256) := rfl
  rw [parsePacket]
  have hread : readUint32 (buildPacket p etm rand) = plen := by
    rw [hdata, List.append_assoc, List.append_assoc, readUint32_writeUint32_prefix]
    omega
  rw [hread, hlen]
  have h5 : ¬ (4 + plen < 5) := by omega
  have h4 : ¬ (4 + plen < 4 + plen) := by omega
  simp only [h5, h4, if_false, ite_false]
  have hget4 : (buildPacket p etm rand).getD 4 0 = padLen := by
    rw [hdata]
    simp [writeUint32, List.getD]
  rw [hget4]
  have hslice : jsSlice (buildPacket p etm rand) 5 (5 + ((plen : Int) - 1 - padLen)) = p := by
    have hpl : (plen : Int) - 1 - (padLen : Int) = (p.length : Int) := by
      rw [hplen]; push_cast; ring
    rw [hpl, jsSlice, hlen]
    have h1 : jsIndex (4 + plen) 5 = 5 := by
      simp only [jsIndex]
      rw [if_neg (by omega)]
      omega
    have h2 : jsIndex (4 + plen) (5 + (p.length : Int)) = 5 + p.length := by
      simp only [jsIndex]
      rw [if_neg (by omega)]
      have : (5 + (p.length : Int)).toNat = 5 + p.length := by omega
      rw [this]
      omega
    rw [h1, h2]
    have hmid : buildPacket p etm rand
        = (writeUint32 plen ++ [padLen]) ++ p
          ++ (List.range padLen).map (fun i => rand i % 256) := by
      rw [hdata, List.append_assoc, List.append_assoc]
    have hA : (writeUint32 plen ++ [padLen]).length = 5 := by simp [writeUint32]
    calc ((buildPacket p etm rand).take (5 + p.length)).drop 5
        = ((( writeUint32 plen ++ [padLen]) ++ p
            ++ (List.range padLen).map (fun i => rand i % 256)).take
              ((writeUint32 plen ++ [padLen]).length + p.length)).drop
              (writeUint32 plen ++ [padLen]).length := by rw [hmid, hA]
      _ = p := extract_middle _ _ _
  rw [hslice]

/-- Witness for `packet_roundtrip` at `p = [20,1,2,3]`, `etm = false`. -/
theorem packet_roundtrip_witness :
    ([20, 1, 2, 3] : List Nat).length ≤ MAX_PACKET_SIZE - 256 ∧
      parsePacket (buildPacket [20, 1, 2, 3] false (fun _ => 0))
        = some ([20, 1, 2, 3], 16) :=
  ⟨by decide, by
    rw [packet_roundtrip [20, 1, 2, 3] false (fun _ => 0) (by decide)]
    decide⟩

/-- C9: `writeBigintMpint` discards the sign — a negative bigint encodes as
its absolute value. -/
theorem mpint_sign_discarded (n : Int) (h : n < 0) :
    writeBigintMpint n = writeBigintMpint (-n) := by
  have h0 : n ≠ 0 := by omega
  have h0' : -n ≠ 0 := by omega
  simp [writeBigintMpint, h0, h0', Int.natAbs_neg]

theorem mpint_sign_discarded_witness :
    writeBigintMpint (-256) = writeBigintMpint 256 :=
  mpint_sign_discarded (-256) (by decide)

/-! ### MAC comparison (src/crypto/mac.ts) -/

/-- `constantTimeEqual`: length check, then an OR-accumulated XOR of all byte
pairs compared against zero. -/
def constantTimeEqual (a b : List Nat) : Bool :=
  if a.length ≠ b.length then false
  else ((List.zipWith (fun x y => x ^^^ y) a b).foldl (fun d x => d ||| x) 0) == 0

theorem or_eq_zero (a b : Nat) : a ||| b = 0 ↔ a = 0 ∧ b = 0 := by
  constructor
  · intro h
    have hbit : ∀ i, a.testBit i = false ∧ b.testBit i = false := by
      intro i
      have ht : (a ||| b).testBit i = false := by rw [h]; exact Nat.zero_testBit i
      rw [Nat.testBit_or] at ht
      exact ⟨(Bool.or_eq_false_iff.mp ht).1, (Bool.or_eq_false_iff.mp ht).2⟩
    exact ⟨Nat.eq_of_testBit_eq fun i => by rw [(hbit i).1, Nat.zero_testBit],
      Nat.eq_of_testBit_eq fun i => by rw [(hbit i).2, Nat.zero_testBit]⟩
  · rintro ⟨rfl, rfl⟩; rfl

theorem foldl_or_eq_zero (l : List Nat) (acc : Nat) :
    l.foldl (fun d x => d ||| x) acc = 0 ↔ acc = 0 ∧ ∀ x ∈ l, x = 0 := by
  induction l generalizing acc with
  | nil => simp
  | cons y ys ih =>
    simp only [List.foldl_cons, ih, List.mem_cons, or_eq_zero]
    constructor
    · rintro ⟨⟨h1, h2⟩, h3⟩
      exact ⟨h1, fun x hx => hx.elim (fun he => he ▸ h2) (h3 x)⟩
    · rintro ⟨h1, h2⟩
      exact ⟨⟨h1, h2 y (Or.inl rfl)⟩, fun x hx => h2 x (Or.inr hx)⟩

/-- The source's constant-time comparison decides exactly list equality. -/
theorem constantTimeEqual_iff (a b : List Nat) :
    constantTimeEqual a b = true ↔ a = b := by
  rw [constantTimeEqual]
  by_cases hlen : a.length = b.length
  · rw [if_neg (by simp [hlen])]
    simp only [beq_iff_eq, foldl_or_eq_zero, true_and]
    constructor
    · intro hall
      apply List.ext_getElem hlen
      intro i h1 h2
      have hmem : a[i] ^^^ b[i] = 0 := by
        apply hall
        have hi2 : i < (List.zipWith (fun x y => x ^^^ y) a b).length := by
          simp [List.length_zipWith]
          omega
        have hv : (List.zipWith (fun x y => x ^^^ y) a b).get ⟨i, hi2⟩
            = a[i] ^^^ b[i] := by
          simp [List.get_eq_getElem, List.getElem_zipWith]
        rw [← hv]
        exact List.get_mem _ _ _
      exact Nat.xor_eq_zero.mp hmem
    · rintro rfl
      intro x hx
      obtain ⟨i, hi, rfl⟩ := List.getElem_of_mem hx
      simp [List.getElem_zipWith]
  · rw [if_pos hlen]
    simp only [Bool.false_eq_true, false_iff]
    intro h
    exact hlen (by rw [h])

/-! ### AES-128-CTR adapter (src/crypto/cipher.ts)

The adapter loops over 16-byte chunks: chunk `i` is XORed with the AES
encryption of counter `iv + i`, and `incrementCounter` wraps the 16-byte
big-endian counter modulo `2^128`.  The AES block function itself is external
(WebCrypto); it appears below as an abstract function `aes : key → counter →
keystream block`.  `xorStream ks iv i data` XORs byte `i+j` of the logical
stream with byte `(i+j) % 16` of block `ks ((iv + (i+j)/16) % 2^128)`, which
is exactly the adapter's per-block loop unrolled to bytes; IVs are carried as
numbers `< 2^128` (the value of the 16-byte big-endian counter). -/

def IVMOD : Nat := 2 ^ 128

def xorStream (ks : Nat → List Nat) (iv : Nat) : Nat → List Nat → List Nat
  | _, [] => []
  | i, b :: rest =>
      (b ^^^ (ks ((iv + i / 16) % IVMOD)).getD (i % 16) 0) :: xorStream ks iv (i + 1) rest

/-- `encryptAES128CTR` / `decryptAES128CTR` (identical in CTR mode): the
transformed bytes plus the counter after `ceil(len/16)` increments. -/
def ctrXor (ks : Nat → List Nat) (iv : Nat) (data : List Nat) : List Nat × Nat :=
  (xorStream ks iv 0 data,
   if data.length = 0 then iv else (iv + (data.length + 15) / 16) % IVMOD)

theorem xorStream_length (ks : Nat → List Nat) (iv : Nat) (i : Nat) (l : List Nat) :
    (xorStream ks iv i l).length = l.length := by
  induction l generalizing i with
  | nil => rfl
  | cons b rest ih => simp [xorStream, ih]

theorem xorStream_invol (ks : Nat → List Nat) (iv : Nat) (i : Nat) (l : List Nat) :
    xorStream ks iv i (xorStream ks iv i l) = l := by
  induction l generalizing i with
  | nil => rfl
  | cons b rest ih =>
    simp only [xorStream, Nat.xor_assoc, Nat.xor_self, Nat.xor_zero, ih]

theorem xorStream_take (ks : Nat → List Nat) (iv : Nat) (i n : Nat) (l : List Nat) :
    (xorStream ks iv i l).take n = xorStream ks iv i (l.take n) := by
  induction l generalizing i n with
  | nil => simp [xorStream]
  | cons b rest ih =>
    cases n with
    | zero => simp [xorStream]
    | succ m => simp [xorStream, ih]

theorem xorStream_drop (ks : Nat → List Nat) (iv : Nat) (i n : Nat) (l : List Nat) :
    (xorStream ks iv i l).drop n = xorStream ks iv (i + n) (l.drop n) := by
  induction l generalizing i n with
  | nil => simp [xorStream]
  | cons b rest ih =>
    cases n with
    | zero => simp [xorStream]
    | succ m =>
      simp only [xorStream, List.drop_succ_cons, ih]
      congr 1
      omega

/-- Continuing the stream from counter `(iv+1) % 2^128` at offset `i` equals
continuing from `iv` at offset `16 + i`: the chained second `decryptAES128CTR`
call in MtE decryption picks up the same keystream bytes. -/
theorem xorStream_shift (ks : Nat → List Nat) (iv : Nat) (i : Nat) (l : List Nat) :
    xorStream ks ((iv + 1) % IVMOD) i l = xorStream ks iv (16 + i) l := by
  induction l generalizing i with
  | nil => rfl
  | cons b rest ih =>
    simp only [xorStream]
    congr 1
    · have h1 : (16 + i) / 16 = 1 + i / 16 := by omega
      have h2 : (16 + i) % 16 = i % 16 := by omega
      rw [h1, h2, Nat.mod_add_mod, ← Nat.add_assoc]
    · rw [ih (i + 1), Nat.add_assoc]

/-! ### Transport cipher (src/transport/transportcipher.ts) -/

/-- The external primitives reached from the transport cipher: the AES block
function behind the imported CTR adapter (key bytes → counter → keystream
block) and HMAC-SHA-256 (key bytes → message → 32-byte tag). -/
structure CryptoSuite where
  aes : List Nat → Nat → List Nat
  hmac : List Nat → List Nat → List Nat

/-- The `TransportCipher` fields.  The `CryptoKey` handles `keyEnc`/`keyDec`
are the imported raw key bytes. -/
structure CipherState where
  ivEnc : Nat
  ivDec : Nat
  keyEnc : List Nat
  keyDec : List Nat
  seqOut : Nat
  seqIn : Nat
  macEtm : Bool
  macC : List Nat
  macS : List Nat
deriving DecidableEq, Repr

inductive DecErr where
  | macVerification
  | protocol
deriving DecidableEq, Repr

/-- `TransportCipher.encrypt`: returns the wire bytes and the advanced state. -/
def encrypt (C : CryptoSuite) (rand : Nat → Nat) (s : CipherState)
    (payload : List Nat) : List Nat × CipherState :=
  let raw := buildPacket payload s.macEtm rand
  let seq := s.seqOut
  if s.macEtm then
    let packetLen := raw.take 4
    let e := ctrXor (C.aes s.keyEnc) s.ivEnc (raw.drop 4)
    let macInput := writeUint32 seq ++ packetLen ++ e.1
    let mac := C.hmac s.macC macInput
    (packetLen ++ e.1 ++ mac, { s with ivEnc := e.2, seqOut := s.seqOut + 1 })
  else
    let e := ctrXor (C.aes s.keyEnc) s.ivEnc raw
    let macInput := writeUint32 seq ++ raw
    let mac := C.hmac s.macC macInput
    (e.1 ++ mac, { s with ivEnc := e.2, seqOut := s.seqOut + 1 })

/-- `TransportCipher.decryptEtm`.  First component: `.ok none` is the NeedMore
signal (`return null`), `.error` a thrown exception.  Second component: the
object's state after the call (the source mutates `ivDec`/`seqIn` only on the
success path, after every check). -/
def decryptEtm (C : CryptoSuite) (s : CipherState) (data : List Nat) :
    Except DecErr (Option (List Nat × Nat)) × CipherState :=
  if data.length < 4 + HMAC_SHA256_SIZE then (.ok none, s) else
  let plen := readUint32 data
  if plen < 5 ∨ plen > MAX_PACKET_SIZE then (.ok none, s) else
  let totalLen := 4 + plen + HMAC_SHA256_SIZE
  if data.length < totalLen then (.ok none, s) else
  let packetLen := data.take 4
  let ciphertext := (data.drop 4).take plen
  let macReceived := (data.drop (4 + plen)).take HMAC_SHA256_SIZE
  let macInput := writeUint32 s.seqIn ++ packetLen ++ ciphertext
  let macExpected := C.hmac s.macS macInput
  if ¬ constantTimeEqual macReceived macExpected then (.error .macVerification, s) else
  let d := ctrXor (C.aes s.keyDec) s.ivDec ciphertext
  let fullRawInner := d.1
  let padLen := fullRawInner.headD 0
  if padLen < 4 ∨ padLen > 255 then (.error .protocol, s) else
  if padLen > plen - 1 then (.error .protocol, s) else
  let payloadLen : Int := (plen : Int) - 1 - (padLen : Int)
  if payloadLen < 0 ∨ 1 + payloadLen > (fullRawInner.length : Int) then (.error .protocol, s) else
  (.ok (some ((fullRawInner.drop 1).take payloadLen.toNat, totalLen)),
   { s with ivDec := d.2, seqIn := s.seqIn + 1 })

/-- `TransportCipher.decryptStandard` (MAC-then-encrypt). -/
def decryptStandard (C : CryptoSuite) (s : CipherState) (data : List Nat) :
    Except DecErr (Option (List Nat × Nat)) × CipherState :=
  if data.length < AES_BLOCK_SIZE + HMAC_SHA256_SIZE then (.ok none, s) else
  let firstBlock := data.take AES_BLOCK_SIZE
  let f := ctrXor (C.aes s.keyDec) s.ivDec firstBlock
  let plen := readUint32 f.1
  if plen < 5 ∨ plen > MAX_PACKET_SIZE then (.ok none, s) else
  let totalEnc := 4 + plen
  if data.length < totalEnc + HMAC_SHA256_SIZE then (.ok none, s) else
  let macReceived := (data.drop totalEnc).take HMAC_SHA256_SIZE
  let fr :=
    if totalEnc ≤ AES_BLOCK_SIZE then (f.1.take totalEnc, f.2)
    else
      let r := ctrXor (C.aes s.keyDec) f.2 ((data.drop AES_BLOCK_SIZE).take (totalEnc - AES_BLOCK_SIZE))
      (f.1 ++ r.1, r.2)
  let fullRaw := fr.1
  let padLen := fullRaw.getD 4 0
  if padLen < 4 ∨ padLen > 255 then (.error .protocol, s) else
  let payloadLen : Int := (plen : Int) - 1 - (padLen : Int)
  if payloadLen < 0 ∨ 5 + payloadLen > (fullRaw.length : Int) then (.error .protocol, s) else
  let macInput := writeUint32 s.seqIn ++ fullRaw
  let macExpected := C.hmac s.macS macInput
  if ¬ constantTimeEqual macReceived macExpected then (.error .macVerification, s) else
  (.ok (some ((fullRaw.drop 5).take payloadLen.toNat, totalEnc + HMAC_SHA256_SIZE)),
   { s with seqIn := s.seqIn + 1, ivDec := fr.2 })

/-- `TransportCipher.decrypt`: mode dispatch. -/
def decrypt (C : CryptoSuite) (s : CipherState) (data : List Nat) :
    Except DecErr (Option (List Nat × Nat)) × CipherState :=
  if s.macEtm then decryptEtm C s data else decryptStandard C s data

/-! ### Concrete instances of the abstract primitives, for witnesses -/

/-- Zero keystream and zero tag: one admissible instantiation of the external
primitives, used to evaluate the cipher on concrete inputs. -/
def zeroSuite : CryptoSuite :=
  { aes := fun _ _ => List.replicate 16 0, hmac := fun _ _ => List.replicate 32 0 }

def etmState : CipherState :=
  { ivEnc := 0, ivDec := 0, keyEnc := [], keyDec := [], seqOut := 3, seqIn := 3,
    macEtm := true, macC := [], macS := [] }

def mteState : CipherState :=
  { etmState with macEtm := false }

/-! ### C1: when is NeedMore returned? -/

/-- C1 (amended): in both MAC modes `decrypt` signals NeedMore exactly when
the buffer is too short for the fixed-size header, when the (ETM: clear,
MtE: decrypted) `packet_length` lies outside `[5, MAX_PACKET_SIZE]`, or when
the buffer is shorter than the full packet plus MAC; every remaining failure
(bad padding, MAC mismatch) is a thrown error, never NeedMore. -/
theorem decrypt_needMore_iff (C : CryptoSuite) (s : CipherState) (d : List Nat) :
    (s.macEtm = true →
      ((decrypt C s d).1 = Except.ok none ↔
        d.length < 4 + HMAC_SHA256_SIZE
          ∨ readUint32 d < 5 ∨ readUint32 d > MAX_PACKET_SIZE
          ∨ d.length < 4 + readUint32 d + HMAC_SHA256_SIZE))
    ∧ (s.macEtm = false →
      ((decrypt C s d).1 = Except.ok none ↔
        d.length < AES_BLOCK_SIZE + HMAC_SHA256_SIZE
          ∨ readUint32 (ctrXor (C.aes s.keyDec) s.ivDec (d.take AES_BLOCK_SIZE)).1 < 5
          ∨ readUint32 (ctrXor (C.aes s.keyDec) s.ivDec (d.take AES_BLOCK_SIZE)).1 > MAX_PACKET_SIZE
          ∨ d.length < 4 + readUint32 (ctrXor (C.aes s.keyDec) s.ivDec (d.take AES_BLOCK_SIZE)).1
              + HMAC_SHA256_SIZE)) := by
  constructor
  · intro hm
    simp only [decrypt, hm, if_true, decryptEtm]
    split_ifs with h1 h2 h3 h4 h5 h6 h7 <;> simp_all <;> omega
  · intro hm
    simp only [decrypt, hm, Bool.false_eq_true, if_false, decryptStandard]
    split_ifs with h1 h2 h3 h4 h5 h6 <;> simp_all <;> omega

/-- Witness for `decrypt_needMore_iff`: a 40-byte buffer whose clear length
word is zero is answered with NeedMore in ETM mode. -/
theorem decrypt_needMore_iff_witness :
    (decrypt zeroSuite etmState (List.replicate 40 0)).1 = Except.ok none :=
  ((decrypt_needMore_iff zeroSuite etmState (List.replicate 40 0)).1 rfl).mpr
    (by decide)

/-- C1 (counterexample to the claim as stated): in ETM mode a 36-byte buffer
with `packet_length = 0` is long enough for the header (so not "too short"),
the length is outside `[5, MAX_PACKET_SIZE]`, and yet the call returns
NeedMore with no error and no state change, where the claim requires a fatal
error. -/
theorem bad_plen_returns_needMore :
    (List.replicate 36 0).length = 4 + HMAC_SHA256_SIZE
      ∧ readUint32 (List.replicate 36 0) = 0
      ∧ decrypt zeroSuite etmState (List.replicate 36 0) = (Except.ok none, etmState) := by
  exact ⟨by decide, by decide, rfl⟩

/-! ### C5: state discipline of `decrypt` -/

set_option maxHeartbeats 2000000 in
/-- C5: a NeedMore outcome leaves the cipher state (in particular `seqIn` and
`ivDec`) unchanged, and `seqIn` moves only on a successful decrypt, where it
is incremented by exactly one. -/
theorem decrypt_state_discipline (C : CryptoSuite) (s : CipherState) (d : List Nat) :
    ((decrypt C s d).1 = Except.ok none → (decrypt C s d).2 = s)
    ∧ ((decrypt C s d).2.seqIn ≠ s.seqIn →
        ∃ r, (decrypt C s d).1 = Except.ok (some r)
          ∧ (decrypt C s d).2.seqIn = s.seqIn + 1) := by
  rw [decrypt]
  split_ifs with hm
  · simp only [decryptEtm]
    split_ifs <;>
      first
        | exact ⟨fun _ => rfl, fun h => absurd rfl h⟩
        | exact ⟨fun hc => absurd hc (by simp), fun _ => ⟨_, rfl, rfl⟩⟩
  · simp only [decryptStandard]
    split_ifs <;>
      first
        | exact ⟨fun _ => rfl, fun h => absurd rfl h⟩
        | exact ⟨fun hc => absurd hc (by simp), fun _ => ⟨_, rfl, rfl⟩⟩

/-- Witness for `decrypt_state_discipline`: the empty buffer is NeedMore and
leaves the state untouched. -/
theorem decrypt_state_discipline_witness :
    (decrypt zeroSuite mteState []).2 = mteState :=
  (decrypt_state_discipline zeroSuite mteState []).1 rfl

/-! ### C2: bit-flipping an encrypted packet -/

/-- `out[pos] ^= (1 << bit)`: flip one bit of one byte of a buffer. -/
def flipBitAt (l : List Nat) (pos bit : Nat) : List Nat :=
  l.set pos (l.getD pos 0 ^^^ 2 ^ bit)

theorem take_append_le (A B : List Nat) (n : Nat) (h : n ≤ A.length) :
    (A ++ B).take n = A.take n := by
  rw [List.take_append_eq_append_take, Nat.sub_eq_zero_of_le h, List.take_zero,
    List.append_nil]

theorem drop_append_le (A B : List Nat) (n : Nat) (h : n ≤ A.length) :
    (A ++ B).drop n = A.drop n ++ B := by
  rw [List.drop_append_eq_append_drop, Nat.sub_eq_zero_of_le h, List.drop_zero]

theorem getD_take_lt (l : List Nat) (n k d : Nat) (h : k < n) :
    (l.take n).getD k d = l.getD k d := by
  induction l generalizing n k with
  | nil => simp
  | cons a rest ih =>
    cases n with
    | zero => omega
    | succ m =>
      cases k with
      | zero => simp [List.getD]
      | succ k' => simpa [List.getD] using ih m k' (by omega)

theorem flipBitAt_length (l : List Nat) (pos bit : Nat) :
    (flipBitAt l pos bit).length = l.length := by
  simp [flipBitAt]

theorem flipBitAt_append_right (A B : List Nat) (i bit : Nat) :
    flipBitAt (A ++ B) (A.length + i) bit = A ++ flipBitAt B i bit := by
  unfold flipBitAt
  rw [List.getD_append_right A B _ _ (by omega),
    List.set_append_right _ _ (by omega)]
  have h1 : A.length + i - A.length = i := by omega
  rw [h1]

theorem flipBitAt_ne (B : List Nat) (i bit : Nat) (h : i < B.length) :
    flipBitAt B i bit ≠ B := by
  intro he
  have hv : (flipBitAt B i bit).getD i 0 = B.getD i 0 ^^^ 2 ^ bit := by
    unfold flipBitAt
    rw [List.getD_eq_getElem _ 0 (by simpa [List.length_set] using h)]
    simp
  have h2 : B.getD i 0 ^^^ 2 ^ bit = B.getD i 0 :=
    hv.symm.trans (congrArg (fun l => l.getD i 0) he)
  have h3 := congrArg (fun x => B.getD i 0 ^^^ x) h2
  simp only [← Nat.xor_assoc, Nat.xor_self, Nat.zero_xor] at h3
  have hp : 0 < 2 ^ bit := Nat.pos_pow_of_pos bit (by norm_num)
  omega

/-- ETM decryption of a well-formed frame whose trailing tag disagrees with
the recomputed HMAC raises the MAC verification error and keeps the state. -/
theorem decryptEtm_mac_mismatch (C : CryptoSuite) (s : CipherState)
    (W ct tag : List Nat) (plen : Nat)
    (hW : W = writeUint32 plen)
    (hct : ct.length = plen)
    (htag : tag.length = HMAC_SHA256_SIZE)
    (h5 : 5 ≤ plen) (hmax : plen ≤ MAX_PACKET_SIZE) (h32 : plen < 2 ^ 32)
    (hne : tag ≠ C.hmac s.macS (writeUint32 s.seqIn ++ W ++ ct)) :
    decryptEtm C s (W ++ ct ++ tag) = (Except.error DecErr.macVerification, s) := by
  have hWlen : W.length = 4 := by rw [hW]; rfl
  have hL : (W ++ ct ++ tag).length = 4 + plen + 32 := by
    simp only [List.length_append, hWlen, hct, htag, HMAC_SHA256_SIZE]
    try omega
  have hread : readUint32 (W ++ ct ++ tag) = plen := by
    rw [hW, List.append_assoc, readUint32_writeUint32_prefix]
    exact Nat.mod_eq_of_lt h32
  have hTake4 : (W ++ ct ++ tag).take 4 = W := by
    rw [take_append_le _ _ _ (by simp only [List.length_append, hWlen]; omega),
      take_append_le _ _ _ (by omega), ← hWlen, List.take_length]
  have hDrop4 : (W ++ ct ++ tag).drop 4 = ct ++ tag := by
    rw [List.append_assoc, ← hWlen, List.drop_left]
  have hCt : ((W ++ ct ++ tag).drop 4).take plen = ct := by
    rw [hDrop4, take_append_le _ _ _ (by omega), ← hct, List.take_length]
  have hTag : ((W ++ ct ++ tag).drop (4 + plen)).take HMAC_SHA256_SIZE = tag := by
    have hWct : (W ++ ct).length = 4 + plen := by simp [hWlen, hct]
    rw [← hWct, List.drop_left, ← htag, List.take_length]
  simp only [decryptEtm, hL, hread, HMAC_SHA256_SIZE, MAX_PACKET_SIZE] at *
  rw [if_neg (by omega), if_neg (by omega), if_neg (by omega), hTake4, hCt, hTag,
    if_pos]
  intro hch
  exact hne ((constantTimeEqual_iff _ _).mp hch)

theorem readUint32_take (l : List Nat) (n : Nat) (h : 4 ≤ n) :
    readUint32 (l.take n) = readUint32 l := by
  unfold readUint32
  rw [getD_take_lt _ _ _ _ (by omega), getD_take_lt _ _ _ _ (by omega),
    getD_take_lt _ _ _ _ (by omega), getD_take_lt _ _ _ _ (by omega)]

/-- MtE decryption of an honestly CTR-encrypted packet whose trailing tag
disagrees with the recomputed HMAC passes the structural checks (the
plaintext decrypts back to the original packet) and then raises the MAC
verification error, keeping the state. -/
theorem decryptStandard_mac_mismatch (C : CryptoSuite) (s : CipherState)
    (raw tag : List Nat)
    (hmod : raw.length % 16 = 0) (hge : 16 ≤ raw.length)
    (hplen : raw.length = 4 + readUint32 raw)
    (hplen5 : 5 ≤ readUint32 raw) (hplenmax : readUint32 raw ≤ MAX_PACKET_SIZE)
    (hpad4 : 4 ≤ raw.getD 4 0) (hpad255 : raw.getD 4 0 ≤ 255)
    (hpadfit : raw.getD 4 0 ≤ readUint32 raw - 1)
    (htag : tag.length = HMAC_SHA256_SIZE)
    (hne : tag ≠ C.hmac s.macS (writeUint32 s.seqIn ++ raw)) :
    decryptStandard C s (xorStream (C.aes s.keyDec) s.ivDec 0 raw ++ tag)
      = (Except.error DecErr.macVerification, s) := by
  have hctl : (xorStream (C.aes s.keyDec) s.ivDec 0 raw).length = raw.length :=
    xorStream_length _ _ _ _
  have hdl : (xorStream (C.aes s.keyDec) s.ivDec 0 raw ++ tag).length
      = raw.length + 32 := by
    simp only [List.length_append, hctl, htag, HMAC_SHA256_SIZE]
  have htk : (xorStream (C.aes s.keyDec) s.ivDec 0 raw ++ tag).take 16
      = xorStream (C.aes s.keyDec) s.ivDec 0 (raw.take 16) := by
    rw [take_append_le _ _ _ (by omega), xorStream_take]
  have hmr : ((xorStream (C.aes s.keyDec) s.ivDec 0 raw ++ tag).drop
        (4 + readUint32 raw)).take 32 = tag := by
    have h1 : 4 + readUint32 raw = (xorStream (C.aes s.keyDec) s.ivDec 0 raw).length := by
      rw [hctl, hplen]
    rw [h1, List.drop_left]
    exact List.take_of_length_le (by simp [htag, HMAC_SHA256_SIZE])
  simp only [HMAC_SHA256_SIZE, MAX_PACKET_SIZE] at htag hplenmax
  simp only [decryptStandard, ctrXor, AES_BLOCK_SIZE, HMAC_SHA256_SIZE, MAX_PACKET_SIZE]
  rw [htk, xorStream_invol, readUint32_take raw 16 (by norm_num), hdl,
    if_neg (by omega), if_neg (by omega), if_neg (by omega), hmr]
  have hfb16 : (xorStream (C.aes s.keyDec) s.ivDec 0 (raw.take 16)).length = 16 := by
    rw [xorStream_length, List.length_take]
    omega
  by_cases h16 : 4 + readUint32 raw ≤ 16
  · rw [if_pos h16]
    have hr16 : raw.length = 16 := by omega
    have hfull : (raw.take 16).take (4 + readUint32 raw) = raw := by
      have h1 : raw.take 16 = raw := List.take_of_length_le (by omega)
      rw [h1]
      exact List.take_of_length_le (by omega)
    simp only [hfull]
    rw [if_neg (by omega), if_neg (by push_cast; omega), if_pos]
    intro hch
    exact hne ((constantTimeEqual_iff _ _).mp hch)
  · rw [if_neg h16]
    have hdi : (xorStream (C.aes s.keyDec) s.ivDec 0 raw ++ tag).drop 16
        = (xorStream (C.aes s.keyDec) s.ivDec 0 raw).drop 16 ++ tag :=
      drop_append_le _ _ _ (by omega)
    have hlen2 : ((xorStream (C.aes s.keyDec) s.ivDec 0 raw).drop 16).length
        = 4 + readUint32 raw - 16 := by
      simp only [List.length_drop, hctl]
      omega
    have hinner : ((xorStream (C.aes s.keyDec) s.ivDec 0 raw).drop 16 ++ tag).take
          (4 + readUint32 raw - 16)
        = (xorStream (C.aes s.keyDec) s.ivDec 0 raw).drop 16 := by
      rw [take_append_le _ _ _ (by omega), ← hlen2, List.take_length]
    rw [hdi, hinner, hfb16]
    have hiv2 : (if (16 : Nat) = 0 then s.ivDec else (s.ivDec + (16 + 15) / 16) % IVMOD)
        = (s.ivDec + 1) % IVMOD := by norm_num
    rw [hiv2]
    have hct16 : (xorStream (C.aes s.keyDec) s.ivDec 0 raw).drop 16
        = xorStream (C.aes s.keyDec) s.ivDec 16 (raw.drop 16) := by
      rw [xorStream_drop, Nat.zero_add]
    have hshift : xorStream (C.aes s.keyDec) ((s.ivDec + 1) % IVMOD) 0
          ((xorStream (C.aes s.keyDec) s.ivDec 0 raw).drop 16)
        = raw.drop 16 := by
      rw [xorStream_shift, Nat.add_zero, hct16, xorStream_invol]
    rw [hshift, List.take_append_drop]
    have hp1 : ∀ x : Nat, ((raw, x) : List Nat × Nat).1 = raw := fun _ => rfl
    rw [hp1]
    rw [if_neg (by omega), if_neg (by push_cast; omega), if_pos]
    intro hch
    exact hne ((constantTimeEqual_iff _ _).mp hch)

theorem buildPacket_take4 (p : List Nat) (etm : Bool) (rand : Nat → Nat) :
    (buildPacket p etm rand).take 4
      = writeUint32 (1 + p.length + calculatePadding p.length etm) := rfl

theorem buildPacket_readUint32 (p : List Nat) (etm : Bool) (rand : Nat → Nat) :
    readUint32 (buildPacket p etm rand)
      = (1 + p.length + calculatePadding p.length etm) % 2 ^ 32 := by
  rw [show buildPacket p etm rand
      = writeUint32 (1 + p.length + calculatePadding p.length etm)
        ++ ([calculatePadding p.length etm] ++ p
          ++ (List.range (calculatePadding p.length etm)).map (fun i => rand i % 256))
    from by simp [buildPacket], readUint32_writeUint32_prefix]

theorem buildPacket_getD4 (p : List Nat) (etm : Bool) (rand : Nat → Nat) :
    (buildPacket p etm rand).getD 4 0 = calculatePadding p.length etm := by
  simp [buildPacket, writeUint32, List.getD]

theorem buildPacket_mte_mod16 (p : List Nat) (rand : Nat → Nat) :
    (buildPacket p false rand).length % 16 = 0 := by
  rw [buildPacket_length]
  simp only [calculatePadding, MIN_PADDING, AES_BLOCK_SIZE, Bool.false_eq_true,
    if_false, ite_false]
  omega

/-- C2 (amended): flipping any bit of any byte of the trailing MAC of an
encrypted packet makes the mirror-configured decrypter raise
`MacVerificationError` with its state unchanged, in both MAC modes and for
every keystream and HMAC instantiation.  (For flips inside the ciphertext the
original claim fails; see the counterexample.) -/
theorem mac_tail_flip_rejected (C : CryptoSuite) (senc sdec : CipherState)
    (payload : List Nat) (rand : Nat → Nat) (i bit : Nat)
    (hmode : sdec.macEtm = senc.macEtm)
    (hkey : sdec.keyDec = senc.keyEnc)
    (hiv : sdec.ivDec = senc.ivEnc)
    (hmkey : sdec.macS = senc.macC)
    (hseq : sdec.seqIn = senc.seqOut)
    (hlen : payload.length ≤ MAX_PACKET_SIZE - 256)
    (hhmac : ∀ k m, (C.hmac k m).length = HMAC_SHA256_SIZE)
    (hi : i < HMAC_SHA256_SIZE) (hbit : bit < 8) :
    decrypt C sdec
        (flipBitAt (encrypt C rand senc payload).1
          ((encrypt C rand senc payload).1.length - HMAC_SHA256_SIZE + i) bit)
      = (Except.error DecErr.macVerification, sdec) := by
  have hpadge := calculatePadding_ge payload.length senc.macEtm
  have hpadle := calculatePadding_le payload.length senc.macEtm
  have hmax : payload.length ≤ 34744 := by simpa [MAX_PACKET_SIZE] using hlen
  cases hsm : senc.macEtm with
  | true =>
    rw [hsm] at hpadge hpadle
    simp only [decrypt, encrypt, ctrXor, hmode, hsm, if_true, HMAC_SHA256_SIZE] at *
    set raw := buildPacket payload true rand with hraw
    set plen := 1 + payload.length + calculatePadding payload.length true with hplen
    set W := raw.take 4 with hWdef
    set e1 := xorStream (C.aes senc.keyEnc) senc.ivEnc 0 (raw.drop 4) with he1
    set mac := C.hmac senc.macC (writeUint32 senc.seqOut ++ W ++ e1) with hmac
    have hrawlen : raw.length = 4 + plen := by
      rw [hraw, buildPacket_length]; omega
    have hctlen : e1.length = plen := by
      rw [he1, xorStream_length, List.length_drop, hrawlen]
      omega
    have hmaclen : mac.length = 32 := hhmac _ _
    have hpos : ((W ++ e1) ++ mac).length - 32 + i = (W ++ e1).length + i := by
      simp only [List.length_append, hmaclen]
      omega
    rw [hpos, flipBitAt_append_right]
    refine decryptEtm_mac_mismatch C sdec W e1 (flipBitAt mac i bit) plen
      (by rw [hWdef, hraw, buildPacket_take4]) hctlen
      (by rw [flipBitAt_length, hmaclen]; rfl)
      (by omega) (by simp only [MAX_PACKET_SIZE]; omega) (by omega) ?_
    rw [hmkey, hseq]
    exact flipBitAt_ne mac i bit (by omega)
  | false =>
    rw [hsm] at hpadge hpadle
    simp only [decrypt, encrypt, ctrXor, hmode, hsm, Bool.false_eq_true, if_false,
      ite_false, HMAC_SHA256_SIZE] at *
    set raw := buildPacket payload false rand with hraw
    set plen := 1 + payload.length + calculatePadding payload.length false with hplen
    have hplenlt : plen < 2 ^ 32 := by omega
    have hread : readUint32 raw = plen := by
      rw [hraw, buildPacket_readUint32, ← hplen, Nat.mod_eq_of_lt hplenlt]
    have hrawlen : raw.length = 4 + plen := by
      rw [hraw, buildPacket_length]; omega
    set mac := C.hmac senc.macC (writeUint32 senc.seqOut ++ raw) with hmac
    set e1 := xorStream (C.aes senc.keyEnc) senc.ivEnc 0 raw with he1
    have hctlen : e1.length = raw.length := by rw [he1, xorStream_length]
    have hmaclen : mac.length = 32 := hhmac _ _
    have hpos : (e1 ++ mac).length - 32 + i = e1.length + i := by
      simp only [List.length_append, hmaclen]
      omega
    rw [hpos, flipBitAt_append_right, he1, ← hkey, ← hiv]
    have hm0 : raw.length % 16 = 0 := by
      rw [hraw]; exact buildPacket_mte_mod16 payload rand
    refine decryptStandard_mac_mismatch C sdec raw (flipBitAt mac i bit)
      hm0
      (by omega)
      (by rw [hread, hrawlen])
      (by rw [hread]; omega)
      (by rw [hread]; simp only [MAX_PACKET_SIZE]; omega)
      (by rw [hraw, buildPacket_getD4]; omega)
      (by rw [hraw, buildPacket_getD4]; omega)
      (by rw [hraw, buildPacket_getD4, hread]; omega)
      (by rw [flipBitAt_length, hmaclen]; rfl) ?_
    rw [hmkey, hseq]
    exact flipBitAt_ne mac i bit (by omega)

/-- C2 (counterexample to the claim as stated): in MtE mode the 4-byte length
field is part of the ciphertext; flipping its top bit makes the mirror
decrypter see `packet_length = 2^31 + 12 > MAX_PACKET_SIZE` and return
NeedMore — no `MacVerificationError` is raised.  The untampered bytes
round-trip, so the pair really is mirror-configured. -/
theorem ciphertext_flip_without_mac_error :
    (encrypt zeroSuite (fun _ => 0) mteState [21]).1.length = 48
    ∧ 0 < (encrypt zeroSuite (fun _ => 0) mteState [21]).1.length - HMAC_SHA256_SIZE
    ∧ decrypt zeroSuite mteState
        (flipBitAt (encrypt zeroSuite (fun _ => 0) mteState [21]).1 0 7)
      = (Except.ok none, mteState)
    ∧ decrypt zeroSuite mteState (encrypt zeroSuite (fun _ => 0) mteState [21]).1
      = (Except.ok (some ([21], 48)), { mteState with seqIn := 4, ivDec := 1 }) :=
  ⟨rfl, by decide, rfl, rfl⟩

/-- Witness for `mac_tail_flip_rejected` at a concrete mirror pair. -/
theorem mac_tail_flip_rejected_witness :
    decrypt zeroSuite mteState
        (flipBitAt (encrypt zeroSuite (fun _ => 0) mteState [21]).1
          ((encrypt zeroSuite (fun _ => 0) mteState [21]).1.length
            - HMAC_SHA256_SIZE + 0) 0)
      = (Except.error DecErr.macVerification, mteState) :=
  mac_tail_flip_rejected zeroSuite mteState mteState [21] (fun _ => 0) 0 0
    rfl rfl rfl rfl rfl (by decide) (fun _ _ => rfl) (by decide) (by decide)

/-! ### Algorithm negotiation (src/kex/kexstate.ts) -/

/-- `selectAlgorithm`: `ourList.find(a => serverList.includes(a)) ?? null`. -/
def selectAlgorithm (ourList serverList : List String) : Option String :=
  ourList.find? (fun a => serverList.contains a)

/-- `negotiateAlgorithms`: the source guards with `if (!kex || !cipher ||
!mac) return null`; a JavaScript string is falsy when it is `null` or the
empty string, so an empty-string selection is also mapped to `null`. -/
def negotiateAlgorithms (preferredKex preferredCipher preferredMac
    serverKex serverCipher serverMac : List String) :
    Option (String × String × String) :=
  match selectAlgorithm preferredKex serverKex,
      selectAlgorithm preferredCipher serverCipher,
      selectAlgorithm preferredMac serverMac with
  | some k, some c, some m =>
      if k = "" ∨ c = "" ∨ m = "" then none else some (k, c, m)
  | _, _, _ => none

/-- C7 (amended): `selectAlgorithm` yields exactly the first client-preferred
entry present in the server list (`none` when the intersection is empty), and
`negotiateAlgorithms` yields a triple exactly when all three selections
succeed with a non-empty name. -/
theorem negotiation_first_match :
    (∀ our srv : List String,
      selectAlgorithm our srv = (our.filter (fun a => srv.contains a)).head?)
    ∧ (∀ pk pc pm sk sc sm : List String, ∀ k c m : String,
      negotiateAlgorithms pk pc pm sk sc sm = some (k, c, m) ↔
        selectAlgorithm pk sk = some k ∧ k ≠ ""
          ∧ selectAlgorithm pc sc = some c ∧ c ≠ ""
          ∧ selectAlgorithm pm sm = some m ∧ m ≠ "") := by
  constructor
  · intro our srv
    induction our with
    | nil => rfl
    | cons a rest ih =>
      simp only [selectAlgorithm, List.find?_cons, List.filter_cons] at ih ⊢
      cases h : srv.contains a <;> simp [h, ih]
  · intro pk pc pm sk sc sm k c m
    simp only [negotiateAlgorithms]
    cases hk : selectAlgorithm pk sk with
    | none => simp
    | some k' =>
      cases hc : selectAlgorithm pc sc with
      | none => simp
      | some c' =>
        cases hm : selectAlgorithm pm sm with
        | none => simp
        | some m' =>
          dsimp only
          by_cases he : k' = "" ∨ c' = "" ∨ m' = ""
          · rw [if_pos he]
            constructor
            · intro h; cases h
            · rintro ⟨h1, h2, h3, h4, h5, h6⟩
              rcases he with h | h | h
              · exact absurd (Option.some.inj h1 ▸ h) h2
              · exact absurd (Option.some.inj h3 ▸ h) h4
              · exact absurd (Option.some.inj h5 ▸ h) h6
          · rw [if_neg he]
            push_neg at he
            constructor
            · intro h
              have e := Option.some.inj h
              have e1 : k' = k := congrArg Prod.fst e
              have e2 : c' = c := congrArg (fun t => t.2.1) e
              have e3 : m' = m := congrArg (fun t => t.2.2) e
              exact ⟨by rw [e1], e1 ▸ he.1, by rw [e2], e2 ▸ he.2.1,
                by rw [e3], e3 ▸ he.2.2⟩
            · rintro ⟨h1, -, h3, -, h5, -⟩
              rw [Option.some.inj h1, Option.some.inj h3, Option.some.inj h5]

/-- Witness for `negotiation_first_match` at concrete lists. -/
theorem negotiation_first_match_witness :
    negotiateAlgorithms ["x"] ["y"] ["z"] ["x", "w"] ["y"] ["z"]
      = some ("x", "y", "z") :=
  (negotiation_first_match.2 ["x"] ["y"] ["z"] ["x", "w"] ["y"] ["z"]
      "x" "y" "z").mpr
    ⟨by decide, by decide, by decide, by decide, by decide, by decide⟩

/-- C7 (counterexample to the claim as stated): with the empty string present
on both sides all three selections succeed, yet `negotiateAlgorithms` returns
`null` because the empty string is falsy in JavaScript. -/
theorem empty_string_negotiation :
    selectAlgorithm [""] [""] = some ""
    ∧ selectAlgorithm ["a"] ["a"] = some "a"
    ∧ negotiateAlgorithms [""] ["a"] ["a"] [""] ["a"] ["a"] = none := by
  refine ⟨by decide, by decide, by decide⟩

/-! ### Deserialization (src/protocol/deserialization.ts) -/

/-- `readBytes`: bounds-checked length-prefixed read; `none` is NeedMore. -/
def readBytesB (data : List Nat) (off : Nat) : Option (List Nat × Nat) :=
  if data.length < off + 4 then none else
  let len := readUint32 (data.drop off)
  if data.length < off + 4 + len then none else
  some ((data.drop (off + 4)).take len, 4 + len)

/-- `readString`: same frame as `readBytes`; the value is kept as raw bytes
(the runtime's TextDecoder is applied by callers only for list splitting and
equality tests, which we perform on bytes). -/
def readStrB (data : List Nat) (off : Nat) : Option (List Nat × Nat) :=
  readBytesB data off

/-- `readMpint`: big-endian accumulation with a two's-complement adjustment
when the top bit of the first byte is set. -/
def readMpintB (data : List Nat) (off : Nat) : Option (Int × Nat) :=
  match readBytesB data off with
  | none => none
  | some (b, c) =>
    let nn : Nat := b.foldl (fun a x => (a <<< 8) ||| x) 0
    let n : Int :=
      if b.length > 0 ∧ (b.headD 0).testBit 7 then (nn : Int) - 2 ^ (8 * b.length)
      else (nn : Int)
    some (n, c)

/-! ### Constants of src/domain/constants.ts

Modelled from the spec: `src/domain/constants.ts` is not among the given
sources.  Message numbers are the RFC 4250 assignments named in §4.7 of the
spec; preference lists and defaults are §4.4/§6; the DH group is RFC 3526
MODP group 14 (§4.3); the client identification tag is implementation-chosen
(§6). -/

def SSH_MSG_SERVICE_REQUEST : Nat := 5
def SSH_MSG_SERVICE_ACCEPT : Nat := 6
def SSH_MSG_EXT_INFO : Nat := 7
def SSH_MSG_KEXINIT : Nat := 20
def SSH_MSG_NEWKEYS : Nat := 21
def SSH_MSG_KEXDH_INIT : Nat := 30
def SSH_MSG_KEX_ECDH_INIT : Nat := 30
def SSH_MSG_KEXDH_REPLY : Nat := 31
def SSH_MSG_KEX_ECDH_REPLY : Nat := 31
def SSH_MSG_USERAUTH_REQUEST : Nat := 50
def SSH_MSG_USERAUTH_FAILURE : Nat := 51
def SSH_MSG_USERAUTH_SUCCESS : Nat := 52
def SSH_MSG_USERAUTH_PK_OK : Nat := 60
def SSH_MSG_GLOBAL_REQUEST : Nat := 80
def SSH_MSG_REQUEST_SUCCESS : Nat := 81
def SSH_MSG_REQUEST_FAILURE : Nat := 82
def SSH_MSG_CHANNEL_OPEN : Nat := 90
def SSH_MSG_CHANNEL_OPEN_CONFIRMATION : Nat := 91
def SSH_MSG_CHANNEL_WINDOW_ADJUST : Nat := 93
def SSH_MSG_CHANNEL_DATA : Nat := 94
def SSH_MSG_CHANNEL_EXTENDED_DATA : Nat := 95
def SSH_MSG_CHANNEL_REQUEST : Nat := 98
def SSH_MSG_CHANNEL_SUCCESS : Nat := 99
def SSH_MSG_CHANNEL_FAILURE : Nat := 100

def PREFERRED_KEX_STR : String :=
  "curve25519-sha256,curve25519-sha256@libssh.org,diffie-hellman-group14-sha256"
def PREFERRED_CIPHER_STR : String := "aes128-ctr"
def PREFERRED_MAC_STR : String := "hmac-sha2-256-etm@openssh.com,hmac-sha2-256"
def DEFAULT_TERMINAL_TYPE : String := "xterm-256color"
def CLIENT_IDENT : List Nat := ascii "SSH-2.0-webssh"

/-- The preference constants after `split(",").map(trim).filter(Boolean)`,
evaluated on the constant strings above. -/
def PREFERRED_KEX_LIST : List (List Nat) :=
  [ascii "curve25519-sha256", ascii "curve25519-sha256@libssh.org",
   ascii "diffie-hellman-group14-sha256"]
def PREFERRED_MAC_LIST : List (List Nat) :=
  [ascii "hmac-sha2-256-etm@openssh.com", ascii "hmac-sha2-256"]

/-- Modelled from the spec: RFC 3526 MODP group-14 prime and generator
(`src/crypto/arithmetic.ts` is not among the given sources). -/
def DH_PRIME : Nat :=
  0xFFFFFFFFFFFFFFFFC90FDAA22168C234C4C6628B80DC1CD129024E088A67CC74020BBEA63B139B22514A08798E3404DDEF9519B3CD3A431B302B0A6DF25F14374FE1356D6D51C245E485B576625E7EC6F44C42E9A637ED6B0BFF5CB6F406B7EDEE386BFB5A899FA5AE9F24117C4B1FE649286651ECE45B3DC2007CB8A163BF0598DA48361C55D39A69163FA8FD24CF5F83655D23DCA3AD961C62F356208552BB9ED529077096966D670C354E4ABC9804F1746C08CA18217C32905E462E36CE3BE39E772C180E86039B2783A2EC07A28FB5C55DF06F4C52C9DE2BCBF6955817183995497CEA956AE515D2261898FA051015728E5A8AACAA68FFFFFFFFFFFFFFFF

/-- Modelled from the spec: `modPow` (square-and-multiply modular
exponentiation over bigints) lives in the missing `src/crypto/arithmetic.ts`;
the spec describes it as big-integer modular exponentiation. -/
def modPow (b : Int) (e : Nat) (m : Int) : Int := b ^ e % m

/-- `computeDHSharedSecret` (src/crypto/keyexchange.ts). -/
def computeDHSharedSecret (f : Int) (x : Nat) : Int := modPow f x (DH_PRIME : Int)

/-! ### Key derivation (src/crypto/keys.ts) -/

structure DerivedKeys where
  ivC : List Nat
  keyC : List Nat
  macC : List Nat
  ivS : List Nat
  keyS : List Nat
  macS : List Nat
deriving DecidableEq, Repr

/-- `deriveKeys`: six SHA-256 digests over `K || H || letter || sessionId`,
truncated to 16 bytes for IVs and cipher keys and 32 bytes for MAC keys;
`sha` is the external SHA-256. -/
def deriveKeys (sha : List Nat → List Nat)
    (sharedSecret exchangeHash sessionId : List Nat) : DerivedKeys :=
  let dk := fun (id : Nat) => sha (sharedSecret ++ exchangeHash ++ [id] ++ sessionId)
  { ivC := (dk 0x41).take 16
    ivS := (dk 0x42).take 16
    keyC := (dk 0x43).take 16
    keyS := (dk 0x44).take 16
    macC := (dk 0x45).take 32
    macS := (dk 0x46).take 32 }

/-- `createTransportCipher`: the 16-byte IVs become their big-endian counter
value; `importKey` keeps the raw key bytes. -/
def bytesToNatBE (l : List Nat) : Nat := l.foldl (fun a b => a * 256 + b) 0

def createTransportCipher (ivC keyC macC ivS keyS macS : List Nat)
    (initialSeqOut initialSeqIn : Nat) (macEtm : Bool) : CipherState :=
  { ivEnc := bytesToNatBE ivC, ivDec := bytesToNatBE ivS,
    keyEnc := keyC, keyDec := keyS,
    seqOut := initialSeqOut, seqIn := initialSeqIn,
    macEtm := macEtm, macC := macC, macS := macS }

/-! ### KEXINIT builder (src/kex/builder.ts) -/

/-- `buildKexInit`: type byte, 16-byte random cookie, ten length-prefixed
algorithm lists, `first_kex_packet_follows = 0`, reserved u32.  The MAC list
is the canonical constant split and re-joined, which is the constant itself. -/
def buildKexInit (cookie : List Nat) : List Nat :=
  [SSH_MSG_KEXINIT] ++ cookie
    ++ writeStringB PREFERRED_KEX_STR
    ++ writeStringB "ssh-ed25519"
    ++ writeStringB PREFERRED_CIPHER_STR
    ++ writeStringB PREFERRED_CIPHER_STR
    ++ writeStringB PREFERRED_MAC_STR
    ++ writeStringB PREFERRED_MAC_STR
    ++ writeStringB "none"
    ++ writeStringB "none"
    ++ writeStringB ""
    ++ writeStringB ""
    ++ [0] ++ writeUint32 0

/-! ### Connection state (src/connection/connectionstate.ts) -/

inductive ConnPhase where
  | identExchange
  | kexPhase
  | authPhase
  | channelOpen
  | active
  | closed
  | error
deriving DecidableEq, Repr

/-- The fields of `ConnectionState` the orchestrator reads or writes.  The
`kex`/`auth`/`channel` sub-records of the source interface are never accessed
by `connectSSH.ts` (it keeps its own private fields) and are omitted. -/
structure ConnState where
  phase : ConnPhase
  serverIdent : List Nat
  sessionId : Option (List Nat)
  cipher : Option CipherState
  fatalError : Option String
deriving DecidableEq, Repr

def createConnectionState : ConnState :=
  { phase := .identExchange, serverIdent := [], sessionId := none,
    cipher := none, fatalError := none }

/-- `setFatalError` (connectionstate.ts): pure transition to phase `error`.
The orchestrator imports this function but never calls it. -/
def setFatalError (state : ConnState) (error : String) : ConnState :=
  { state with phase := .error, fatalError := some error }

/-! ### Orchestrator (src/connection/connectSSH.ts) -/

/-- The `onError` payloads, as structured values in place of the formatted
message strings of the source (the dynamic parts are carried verbatim). -/
inductive ErrMsg where
  | serverDisconnected (desc : Option (List Nat)) (reasonCode : Nat)
  | kexInitParse
  | kexInitHostKey
  | kexInitCipherCtos
  | kexInitCipherStoc
  | kexInitMacCtos
  | kexInitMacStoc
  | macNegotiationFailed (serverOffered : List (List Nat))
  | kexNegotiationFailed (serverOffered : List (List Nat))
  | kexDhReplyParse
  | kexDhReplyF
  | kexReplyParse
  | kexReplyQs
  | authFailed (afterPKOk : Bool) (methods : Option (List Nat))
  | macVerificationFailed
  | ptyDenied
deriving DecidableEq, Repr

/-- The external collaborators of the orchestrator: hashing, HMAC, the AES
block function, the DH/X25519 ephemeral randomness, signing, the KEXINIT
cookie bytes and the padding randomness. -/
structure Oracle where
  sha256 : List Nat → List Nat
  hmac : List Nat → List Nat → List Nat
  aes : List Nat → Nat → List Nat
  dhX : Nat
  dhE : Int
  x25519Priv : Nat
  x25519Pub : List Nat
  x25519Secret : Nat → List Nat → List Nat
  ed25519Sign : List Nat → List Nat
  cookie : List Nat
  rand : Nat → Nat

def suiteOf (E : Oracle) : CryptoSuite := { aes := E.aes, hmac := E.hmac }

/-- The orchestrator's mutable fields plus its observable effects: `sent`
(writes to the transport), `errors` (`onError` invocations), `delivered`
(bytes handed to the data callback), `ptyDeniedCount` (`onPtyDenied`
invocations). -/
structure Orch where
  connState : ConnState
  dataBuffer : List Nat
  hasDataCallback : Bool
  delivered : List (List Nat)
  encryptedBuf : List Nat
  identBuf : List Nat
  draining : Bool
  useEncrypted : Bool
  fatalError : Bool
  channelId : Nat
  peerChannelId : List Nat
  shellSent : Bool
  kexInitC : Option (List Nat)
  kexInitS : Option (List Nat)
  serverKexList : List (List Nat)
  negotiatedMac : Option (List Nat)
  dhX : Option Nat
  dhE : Option Int
  ephemeralPriv : Option Nat
  qc : Option (List Nat)
  sessionId : Option (List Nat)
  receivedPKOk : Bool
  wsOpen : Bool
  sent : List (List Nat)
  errors : List ErrMsg
  ptyDeniedCount : Nat
  username : List Nat
  certKeyType : List Nat
  certBlob : List Nat
  termCols : Nat
  termRows : Nat
deriving DecidableEq, Repr

/-- The state after the constructor. -/
def initOrch (username certKeyType certBlob : List Nat) (cols rows : Nat) : Orch :=
  { connState := createConnectionState
    dataBuffer := [], hasDataCallback := false, delivered := []
    encryptedBuf := [], identBuf := [], draining := false
    useEncrypted := false, fatalError := false
    channelId := 0, peerChannelId := [0, 0, 0, 0], shellSent := false
    kexInitC := none, kexInitS := none, serverKexList := []
    negotiatedMac := none, dhX := none, dhE := none
    ephemeralPriv := none, qc := none, sessionId := none
    receivedPKOk := false, wsOpen := true
    sent := [], errors := [], ptyDeniedCount := 0
    username := username, certKeyType := certKeyType, certBlob := certBlob
    termCols := cols, termRows := rows }

/-- `send`: raw write, guarded by the socket being open. -/
def orchSend (s : Orch) (d : List Nat) : Orch :=
  if s.wsOpen then { s with sent := s.sent ++ [d] } else s

/-- `setFatal`: latch the flag and invoke `onError` — only the first time.
Note: it does not touch `connState.phase`. -/
def orchSetFatal (s : Orch) (msg : ErrMsg) : Orch :=
  if s.fatalError then s
  else { s with fatalError := true, errors := s.errors ++ [msg] }

/-- `sendEncrypted`: the single ordered async chain is sequentialised. -/
def sendEncrypted (E : Oracle) (s : Orch) (payload : List Nat) : Orch :=
  match s.connState.cipher with
  | none => s
  | some c =>
    let r := encrypt (suiteOf E) E.rand c payload
    let s := { s with connState := { s.connState with cipher := some r.2 } }
    if s.wsOpen then { s with sent := s.sent ++ [r.1] } else s

/-- `flushBuf`. -/
def flushBuf (s : Orch) : Orch :=
  if s.dataBuffer.length > 0 ∧ s.hasDataCallback then
    { s with delivered := s.delivered ++ [s.dataBuffer], dataBuffer := [] }
  else s

/-- `combined.findIndex` for the 4-byte pattern `"SSH-"`. -/
def findSSHDash (l : List Nat) : Option Nat :=
  (List.range l.length).find? (fun i =>
    decide (i + 4 ≤ l.length) && (l.getD i 0 == 83) && (l.getD (i + 1) 0 == 83)
      && (l.getD (i + 2) 0 == 72) && (l.getD (i + 3) 0 == 45))

def findCRLF (l : List Nat) : Option Nat :=
  (List.range l.length).find? (fun i =>
    decide (i + 1 < l.length) && (l.getD i 0 == 13) && (l.getD (i + 1) 0 == 10))

def findLF (l : List Nat) : Option Nat :=
  (List.range l.length).find? (fun i => l.getD i 0 == 10)

/-- `extractServerIdent`: returns the updated state and `some rest` when the
version line was found (`rest` are the residual protocol bytes), `none` when
more bytes are needed (they are stashed in `identBuf`). -/
def extractServerIdent (s : Orch) (d : List Nat) : Orch × Option (List Nat) :=
  let combined := s.identBuf ++ d
  match findSSHDash combined with
  | none => ({ s with identBuf := combined }, none)
  | some sshStart =>
    let afterIdent := combined.drop sshStart
    let fstEnd :=
      match findCRLF afterIdent with
      | some e => some (e, 2)
      | none =>
        match findLF afterIdent with
        | some e => some (e, 1)
        | none => none
    match fstEnd with
    | none => ({ s with identBuf := combined }, none)
    | some (e, termLen) =>
      let s := { s with
        connState := { s.connState with serverIdent := afterIdent.take e },
        identBuf := [] }
      let restStart := sshStart + e + termLen
      if restStart < combined.length then (s, some (combined.drop restStart))
      else (s, some [])

/-- `serverIdent.replace(/\r?\n$/, "")`. -/
def stripTrailingNewline (l : List Nat) : List Nat :=
  let n := l.length
  if 2 ≤ n ∧ l.getD (n - 2) 0 = 13 ∧ l.getD (n - 1) 0 = 10 then l.take (n - 2)
  else if 1 ≤ n ∧ l.getD (n - 1) 0 = 10 then l.take (n - 1)
  else l

/-- `str.split(",")` on bytes (separator `0x2c`). -/
def splitComma : List Nat → List (List Nat)
  | [] => [[]]
  | b :: rest =>
    let r := splitComma rest
    if b = 44 then [] :: r else (b :: r.headD []) :: r.tail

def isWsB (b : Nat) : Bool := b == 9 || b == 10 || b == 11 || b == 12 || b == 13 || b == 32

/-- `.trim()` restricted to the ASCII whitespace that occurs on this wire. -/
def trimB (l : List Nat) : List Nat :=
  ((l.dropWhile isWsB).reverse.dropWhile isWsB).reverse

/-- `.split(",").map(s => s.trim()).filter(Boolean)`. -/
def splitTrim (l : List Nat) : List (List Nat) :=
  ((splitComma l).map trimB).filter (fun x => !x.isEmpty)

/-- The userauth request with attached signature (built identically in the
SERVICE_ACCEPT and PK_OK branches). -/
def buildSignedAuthRequest (E : Oracle) (s : Orch) : List Nat :=
  let signData :=
    writeBytes (s.sessionId.getD []) ++ [SSH_MSG_USERAUTH_REQUEST]
      ++ writeBytes s.username ++ writeStringB "ssh-connection"
      ++ writeStringB "publickey" ++ [1]
      ++ writeBytes s.certKeyType ++ writeBytes s.certBlob
  let sig := E.ed25519Sign signData
  let sigAlg :=
    if (ascii "ssh-ed25519").isPrefixOf s.certKeyType then ascii "ssh-ed25519"
    else s.certKeyType
  let sigBlob := writeBytes sigAlg ++ writeBytes sig
  [SSH_MSG_USERAUTH_REQUEST] ++ writeBytes s.username
    ++ writeStringB "ssh-connection" ++ writeStringB "publickey" ++ [1]
    ++ writeBytes s.certKeyType ++ writeBytes s.certBlob ++ writeBytes sigBlob

/-- `processPayload`: the message dispatch of the orchestrator.  Branches
appear in source order; the KEX timeout timer (logging only) is not
modelled. -/
def processPayload (E : Oracle) (s : Orch) (p : List Nat) : Orch :=
  let msgType := p.headD 0
  if msgType = 2 then s
  else if msgType = 1 then
    let reasonCode := if 5 ≤ p.length then readUint32 (p.drop 1) else 0
    let desc := readStrB p 5
    orchSetFatal s (.serverDisconnected (desc.map (fun v => v.1)) reasonCode)
  else if msgType = 3 then s
  else if msgType = 4 then s
  else if msgType = SSH_MSG_EXT_INFO then s
  else if msgType = SSH_MSG_GLOBAL_REQUEST then
    match readStrB p 1 with
    | none => s
    | some (reqName, consumed) =>
      let wantReply := 1 + consumed < p.length ∧ p.getD (1 + consumed) 0 ≠ 0
      if wantReply then
        let ok := reqName = ascii "keepalive@openssh.com"
        sendEncrypted E s
          [if ok then SSH_MSG_REQUEST_SUCCESS else SSH_MSG_REQUEST_FAILURE]
      else s
  else if msgType = SSH_MSG_KEXINIT ∧ s.kexInitS = none then
    let s := { s with kexInitS := some p }
    match readStrB p (1 + 16) with
    | none => orchSetFatal s .kexInitParse
    | some (serverKex, c1) =>
      let s := { s with serverKexList := splitTrim serverKex }
      match readStrB p (17 + c1) with
      | none => orchSetFatal s .kexInitHostKey
      | some (_, c2) =>
        match readStrB p (17 + c1 + c2) with
        | none => orchSetFatal s .kexInitCipherCtos
        | some (_, c3) =>
          match readStrB p (17 + c1 + c2 + c3) with
          | none => orchSetFatal s .kexInitCipherStoc
          | some (_, c4) =>
            match readStrB p (17 + c1 + c2 + c3 + c4) with
            | none => orchSetFatal s .kexInitMacCtos
            | some (_, c5) =>
              match readStrB p (17 + c1 + c2 + c3 + c4 + c5) with
              | none => orchSetFatal s .kexInitMacStoc
              | some (macStoc, _) =>
                let serverMacList := splitTrim macStoc
                match PREFERRED_MAC_LIST.find? (fun a => serverMacList.contains a) with
                | none => orchSetFatal s (.macNegotiationFailed (serverMacList.take 3))
                | some nm =>
                  let s := { s with negotiatedMac := some nm }
                  let negotiated :=
                    PREFERRED_KEX_LIST.find? (fun a => s.serverKexList.contains a)
                  let isDH := negotiated = some (ascii "diffie-hellman-group14-sha256")
                  let isCurve := negotiated = some (ascii "curve25519-sha256")
                    ∨ negotiated = some (ascii "curve25519-sha256@libssh.org")
                  if negotiated = none ∨ (¬ isDH ∧ ¬ isCurve) then
                    orchSetFatal s (.kexNegotiationFailed (s.serverKexList.take 3))
                  else
                    let kexInit := buildKexInit E.cookie
                    let s := { s with kexInitC := some kexInit }
                    let s := orchSend s (buildPacket kexInit false E.rand)
                    if isDH then
                      let s := { s with dhX := some E.dhX, dhE := some E.dhE }
                      orchSend s (buildPacket
                        ([SSH_MSG_KEXDH_INIT] ++ writeBigintMpint E.dhE) false E.rand)
                    else
                      let s := { s with ephemeralPriv := some E.x25519Priv,
                                        qc := some E.x25519Pub }
                      orchSend s (buildPacket
                        ([SSH_MSG_KEX_ECDH_INIT] ++ writeBytes E.x25519Pub) false E.rand)
  else if msgType = SSH_MSG_KEXDH_REPLY ∧ s.dhX ≠ none ∧ s.dhE ≠ none
      ∧ s.kexInitC ≠ none ∧ s.kexInitS ≠ none then
    match s.dhX, s.dhE, s.kexInitC, s.kexInitS with
    | some x, some e, some ic, some isv =>
      (match readBytesB p 1 with
      | none => orchSetFatal s .kexDhReplyParse
      | some (serverHostKey, c1) =>
        match readMpintB p (1 + c1) with
        | none => orchSetFatal s .kexDhReplyF
        | some (f, _) =>
          let k := computeDHSharedSecret f x
          let vs := stripTrailingNewline s.connState.serverIdent
          let h := E.sha256 (writeBytes CLIENT_IDENT ++ writeBytes vs
            ++ writeBytes ic ++ writeBytes isv ++ writeBytes serverHostKey
            ++ writeBigintMpint e ++ writeBigintMpint f ++ writeBigintMpint k)
          let s := { s with sessionId := some h,
                            connState := { s.connState with sessionId := some h } }
          let dk := deriveKeys E.sha256 (writeBigintMpint k) h h
          let macEtm := s.negotiatedMac = some (ascii "hmac-sha2-256-etm@openssh.com")
          let cipher := createTransportCipher dk.ivC dk.keyC dk.macC dk.ivS dk.keyS
            dk.macS 3 3 macEtm
          let s := { s with connState := { s.connState with cipher := some cipher } }
          orchSend s (buildPacket [SSH_MSG_NEWKEYS] false E.rand))
    | _, _, _, _ => s
  else if msgType = SSH_MSG_KEX_ECDH_REPLY ∧ s.ephemeralPriv ≠ none ∧ s.qc ≠ none
      ∧ s.kexInitC ≠ none ∧ s.kexInitS ≠ none then
    match s.ephemeralPriv, s.qc, s.kexInitC, s.kexInitS with
    | some priv, some qcv, some ic, some isv =>
      (match readBytesB p 1 with
      | none => orchSetFatal s .kexReplyParse
      | some (serverHostKey, c1) =>
        match readBytesB p (1 + c1) with
        | none => orchSetFatal s .kexReplyQs
        | some (qs, _) =>
          let k := E.x25519Secret priv qs
          let vs := stripTrailingNewline s.connState.serverIdent
          let h := E.sha256 (writeBytes CLIENT_IDENT ++ writeBytes vs
            ++ writeBytes ic ++ writeBytes isv ++ writeBytes serverHostKey
            ++ writeBytes qcv ++ writeBytes qs ++ writeByteMpint k)
          let s := { s with sessionId := some h,
                            connState := { s.connState with sessionId := some h } }
          let dk := deriveKeys E.sha256 (writeByteMpint k) h h
          let macEtm := s.negotiatedMac = some (ascii "hmac-sha2-256-etm@openssh.com")
          let cipher := createTransportCipher dk.ivC dk.keyC dk.macC dk.ivS dk.keyS
            dk.macS 3 3 macEtm
          let s := { s with connState := { s.connState with cipher := some cipher } }
          orchSend s (buildPacket [SSH_MSG_NEWKEYS] false E.rand))
    | _, _, _, _ => s
  else if msgType = SSH_MSG_NEWKEYS then
    let s := { s with useEncrypted := true }
    sendEncrypted E s ([SSH_MSG_SERVICE_REQUEST] ++ writeStringB "ssh-userauth")
  else if msgType = SSH_MSG_SERVICE_ACCEPT then
    sendEncrypted E s (buildSignedAuthRequest E s)
  else if msgType = SSH_MSG_USERAUTH_FAILURE then
    let methods := readStrB p 1
    orchSetFatal s (.authFailed s.receivedPKOk (methods.map (fun v => v.1)))
  else if msgType = SSH_MSG_USERAUTH_PK_OK then
    let s := { s with receivedPKOk := true }
    sendEncrypted E s (buildSignedAuthRequest E s)
  else if msgType = SSH_MSG_USERAUTH_SUCCESS then
    sendEncrypted E s ([SSH_MSG_CHANNEL_OPEN] ++ writeStringB "session"
      ++ [0, 0, 0, 1] ++ [0, 0, 0x80, 0] ++ [0, 0, 0x20, 0])
  else if msgType = SSH_MSG_CHANNEL_OPEN_CONFIRMATION then
    let s := { s with channelId := readUint32 (p.drop 1),
                      peerChannelId := jsSlice p 5 9 }
    sendEncrypted E s ([SSH_MSG_CHANNEL_REQUEST] ++ s.peerChannelId
      ++ writeStringB "pty-req" ++ [1] ++ writeStringB DEFAULT_TERMINAL_TYPE
      ++ writeUint32 s.termCols ++ writeUint32 s.termRows
      ++ writeUint32 0 ++ writeUint32 0 ++ writeBytes [0])
  else if (msgType = SSH_MSG_CHANNEL_SUCCESS ∨ msgType = SSH_MSG_CHANNEL_FAILURE)
      ∧ ¬ s.shellSent then
    let s :=
      if msgType = SSH_MSG_CHANNEL_FAILURE then
        { s with errors := s.errors ++ [.ptyDenied],
                 ptyDeniedCount := s.ptyDeniedCount + 1 }
      else s
    let s := sendEncrypted E s ([SSH_MSG_CHANNEL_REQUEST] ++ s.peerChannelId
      ++ writeStringB "shell" ++ [1])
    { s with shellSent := true }
  else if msgType = SSH_MSG_CHANNEL_DATA then
    match readBytesB p 5 with
    | none => s
    | some (dat, _) =>
      let s := { s with dataBuffer := s.dataBuffer ++ dat }
      let s := flushBuf s
      if 0 < dat.length then
        sendEncrypted E s ([SSH_MSG_CHANNEL_WINDOW_ADJUST] ++ s.peerChannelId
          ++ writeUint32 dat.length)
      else s
  else if msgType = SSH_MSG_CHANNEL_EXTENDED_DATA then
    match readBytesB p 9 with
    | none => s
    | some (dat, _) =>
      let s := { s with dataBuffer := s.dataBuffer ++ dat }
      let s := flushBuf s
      if 0 < dat.length then
        sendEncrypted E s ([SSH_MSG_CHANNEL_WINDOW_ADJUST] ++ s.peerChannelId
          ++ writeUint32 dat.length)
      else s
  else s

/-- The drain loop body of `processEncryptedPackets`; the fuel is an upper
bound on the number of iterations (each successful decrypt consumes at least
41 bytes of `encryptedBuf`, which only ever shrinks during the drain). -/
def processEncLoop (E : Oracle) : Nat → Orch → Orch
  | 0, s => s
  | fuel + 1, s =>
    match s.connState.cipher with
    | none => s
    | some c =>
      match decrypt (suiteOf E) c s.encryptedBuf with
      | (Except.error e, c') =>
        let s := { s with connState := { s.connState with cipher := some c' } }
        if e = DecErr.macVerification then orchSetFatal s .macVerificationFailed
        else s
      | (Except.ok none, c') =>
        { s with connState := { s.connState with cipher := some c' } }
      | (Except.ok (some (payload, consumed)), c') =>
        let s := { s with connState := { s.connState with cipher := some c' },
                          encryptedBuf := s.encryptedBuf.drop consumed }
        let s := processPayload E s payload
        processEncLoop E fuel s

/-- `processEncryptedPackets`: re-entrancy-guarded drain. -/
def processEncryptedPackets (E : Oracle) (s : Orch) : Orch :=
  if s.draining then s
  else
    let sr := processEncLoop E (s.encryptedBuf.length + 1) { s with draining := true }
    { sr with draining := false }

/-- The loop of `processUnencryptedPackets`; fuel as above (each parsed
packet consumes at least 4 bytes). -/
def processUnencLoop (E : Oracle) : Nat → Orch → List Nat → Nat → Orch
  | 0, s, _, _ => s
  | fuel + 1, s, d, offset =>
    if offset < d.length then
      match parsePacket (d.drop offset) with
      | none => s
      | some (payload, consumed) =>
        let offset := offset + consumed
        let s := processPayload E s payload
        if s.useEncrypted then
          processEncryptedPackets E
            { s with encryptedBuf := s.encryptedBuf ++ d.drop offset }
        else
          processUnencLoop E fuel s d offset
    else s

def processUnencryptedPackets (E : Oracle) (s : Orch) (d : List Nat) : Orch :=
  processUnencLoop E (d.length + 1) s d 0

/-- `handleRawData`: the inbound chunk handler. -/
def handleRawData (E : Oracle) (s : Orch) (d : List Nat) : Orch :=
  if s.fatalError then s
  else
    match (if s.connState.serverIdent.isEmpty then extractServerIdent s d
           else (s, some d)) with
    | (s, none) => s
    | (s, some d) =>
      if ¬ s.useEncrypted then processUnencryptedPackets E s d
      else processEncryptedPackets E { s with encryptedBuf := s.encryptedBuf ++ d }

/-- A concrete instantiation of the external collaborators, for witnesses. -/
def zeroOracle : Oracle :=
  { sha256 := fun _ => List.replicate 32 1
    hmac := fun _ _ => List.replicate 32 0
    aes := fun _ _ => List.replicate 16 0
    dhX := 2, dhE := 4
    x25519Priv := 0, x25519Pub := List.replicate 32 7
    x25519Secret := fun _ _ => List.replicate 32 9
    ed25519Sign := fun _ => List.replicate 64 0
    cookie := List.replicate 16 0
    rand := fun _ => 0 }

theorem orchSend_connState (s : Orch) (d : List Nat) :
    (orchSend s d).connState = s.connState := by
  rw [orchSend]
  split <;> rfl

/-! ### C10: a second server KEXINIT is ignored -/

/-- C10: once a server KEXINIT payload has been saved (`kexInitS` non-null),
a further KEXINIT message leaves the whole orchestrator state — negotiation
fields, saved KEXINIT payloads, cipher and all — unchanged. -/
theorem kexinit_processed_once (E : Oracle) (s : Orch) (p k : List Nat)
    (hp : p.headD 0 = 20) (hk : s.kexInitS = some k) :
    processPayload E s p = s := by
  simp only [processPayload, hp, hk, SSH_MSG_EXT_INFO, SSH_MSG_GLOBAL_REQUEST,
    SSH_MSG_KEXINIT, SSH_MSG_KEXDH_REPLY, SSH_MSG_KEX_ECDH_REPLY, SSH_MSG_NEWKEYS,
    SSH_MSG_SERVICE_ACCEPT, SSH_MSG_USERAUTH_FAILURE, SSH_MSG_USERAUTH_PK_OK,
    SSH_MSG_USERAUTH_SUCCESS, SSH_MSG_CHANNEL_OPEN_CONFIRMATION,
    SSH_MSG_CHANNEL_SUCCESS, SSH_MSG_CHANNEL_FAILURE, SSH_MSG_CHANNEL_DATA,
    SSH_MSG_CHANNEL_EXTENDED_DATA]
  norm_num [hk]
  intro hcon
  exact absurd hcon (by simp)

/-- Witness for `kexinit_processed_once`. -/
theorem kexinit_processed_once_witness :
    processPayload zeroOracle
        { (initOrch [] [] [] 80 24) with kexInitS := some [20] } [20]
      = { (initOrch [] [] [] 80 24) with kexInitS := some [20] } :=
  kexinit_processed_once zeroOracle _ [20] [20] rfl rfl

/-! ### C3: the fatal-error trap -/

/-- C3: on the first fatal condition `onError` is invoked exactly once (a
second fatal is a no-op), the flag latches, inbound chunks are discarded
whole — but `connState.phase` is NOT set to `error`: `setFatal` never calls
`setFatalError`, so the phase stays whatever it was (the imported
`setFatalError` of connectionstate.ts is unused).  The fourth conjunct
records this divergence from the specified behaviour. -/
theorem fatal_trap_behaviour (E : Oracle) (s : Orch) (m m' : ErrMsg) (d : List Nat)
    (h : s.fatalError = false) :
    (orchSetFatal s m).errors = s.errors ++ [m]
    ∧ (orchSetFatal s m).fatalError = true
    ∧ orchSetFatal (orchSetFatal s m) m' = orchSetFatal s m
    ∧ (orchSetFatal s m).connState.phase = s.connState.phase
    ∧ handleRawData E (orchSetFatal s m) d = orchSetFatal s m := by
  have h1 : orchSetFatal s m
      = { s with fatalError := true, errors := s.errors ++ [m] } := by
    rw [orchSetFatal, if_neg (by simp [h])]
  refine ⟨by rw [h1], by rw [h1], ?_, by rw [h1], ?_⟩
  · rw [h1, orchSetFatal]
    simp
  · rw [h1, handleRawData]
    simp

/-- Witness for `fatal_trap_behaviour`: a chunk arriving after a trap on the
fresh state is dropped, and the phase is still `ident_exchange`. -/
theorem fatal_trap_behaviour_witness :
    handleRawData zeroOracle (orchSetFatal (initOrch [] [] [] 80 24) .kexInitParse)
        [1, 2, 3]
      = orchSetFatal (initOrch [] [] [] 80 24) .kexInitParse
    ∧ (orchSetFatal (initOrch [] [] [] 80 24) .kexInitParse).connState.phase
      = ConnPhase.identExchange :=
  ⟨(fatal_trap_behaviour zeroOracle (initOrch [] [] [] 80 24) .kexInitParse
      .kexInitParse [1, 2, 3] rfl).2.2.2.2,
   (fatal_trap_behaviour zeroOracle (initOrch [] [] [] 80 24) .kexInitParse
      .kexInitParse [1, 2, 3] rfl).2.2.2.1⟩

/-! ### C6: the transport cipher starts with both sequence numbers at 3 -/

/-- C6: in both the KEXDH_REPLY and the KEX_ECDH_REPLY branch (message type
31), the transport cipher stored in the connection state is constructed with
`seqOut = seqIn = 3`. -/
theorem cipher_seq_init_three (E : Oracle) (s : Orch) (p : List Nat) :
    (∀ (x : Nat) (e : Int) (ic isv hk : List Nat) (f : Int) (c1 c2 : Nat),
      p.headD 0 = 31 → s.dhX = some x → s.dhE = some e → s.kexInitC = some ic →
      s.kexInitS = some isv → readBytesB p 1 = some (hk, c1) →
      readMpintB p (1 + c1) = some (f, c2) →
      ∃ c, (processPayload E s p).connState.cipher = some c
        ∧ c.seqOut = 3 ∧ c.seqIn = 3)
    ∧ (∀ (priv : Nat) (qcv ic isv hk qs : List Nat) (c1 c2 : Nat),
      p.headD 0 = 31 → s.dhX = none → s.ephemeralPriv = some priv →
      s.qc = some qcv → s.kexInitC = some ic → s.kexInitS = some isv →
      readBytesB p 1 = some (hk, c1) → readBytesB p (1 + c1) = some (qs, c2) →
      ∃ c, (processPayload E s p).connState.cipher = some c
        ∧ c.seqOut = 3 ∧ c.seqIn = 3) := by
  constructor
  · intro x e ic isv hk f c1 c2 hp hx he hic his hrb hrm
    simp only [processPayload, hp, SSH_MSG_EXT_INFO, SSH_MSG_GLOBAL_REQUEST,
      SSH_MSG_KEXINIT, SSH_MSG_KEXDH_REPLY, SSH_MSG_NEWKEYS]
    norm_num [hx, he, hic, his, hrb, hrm]
    rw [if_pos (show ¬(some x = none) ∧ ¬(some e = none) ∧ ¬(some ic = none)
        ∧ ¬(some isv = none) from ⟨by simp, by simp, by simp, by simp⟩),
      orchSend_connState]
    exact ⟨_, rfl, rfl, rfl⟩
  · intro priv qcv ic isv hk qs c1 c2 hp hx hpv hqc hic his hrb hqs
    simp only [processPayload, hp, SSH_MSG_EXT_INFO, SSH_MSG_GLOBAL_REQUEST,
      SSH_MSG_KEXINIT, SSH_MSG_KEXDH_REPLY, SSH_MSG_KEX_ECDH_REPLY, SSH_MSG_NEWKEYS]
    norm_num [hx, hpv, hqc, hic, his, hrb, hqs]
    rw [if_pos (show ¬(some priv = none) ∧ ¬(some qcv = none) ∧ ¬(some ic = none)
        ∧ ¬(some isv = none) from ⟨by simp, by simp, by simp, by simp⟩),
      orchSend_connState]
    exact ⟨_, rfl, rfl, rfl⟩

/-- A state in which the DH reply branch fires. -/
def dhAwaitState : Orch :=
  { initOrch [] [] [] 80 24 with
    dhX := some 2
    dhE := some 4
    kexInitC := some [20]
    kexInitS := some [20] }

/-- Witness for `cipher_seq_init_three` (the DH branch at a concrete
reply payload). -/
theorem cipher_seq_init_three_witness :
    ∃ c,
      (processPayload zeroOracle dhAwaitState
          [31, 0, 0, 0, 1, 9, 0, 0, 0, 1, 5]).connState.cipher = some c
        ∧ c.seqOut = 3 ∧ c.seqIn = 3 :=
  (cipher_seq_init_three zeroOracle _ _).1 2 4 [20] [20] [9] 5 5 5
    rfl rfl rfl rfl rfl (by decide) (by decide)

/-! ### C8: version-line extraction -/

/-- C8: after the chunks `"garbage-before-"` and `"SSH-2.0-server\r\nMORE"`,
the recorded server version is exactly `"SSH-2.0-server"` (terminator
stripped) and the residual bytes `"MORE"` are returned as protocol data (and
routed into the plaintext packet decoder by `handleRawData`). -/
theorem version_line_extraction :
    (extractServerIdent (initOrch [] [] [] 80 24) (ascii "garbage-before-")).2 = none
    ∧ (extractServerIdent (initOrch [] [] [] 80 24)
        (ascii "garbage-before-")).1.identBuf = ascii "garbage-before-"
    ∧ (extractServerIdent
        (extractServerIdent (initOrch [] [] [] 80 24) (ascii "garbage-before-")).1
        (ascii "SSH-2.0-server\r\nMORE")).2 = some (ascii "MORE")
    ∧ (extractServerIdent
        (extractServerIdent (initOrch [] [] [] 80 24) (ascii "garbage-before-")).1
        (ascii "SSH-2.0-server\r\nMORE")).1.connState.serverIdent
      = ascii "SSH-2.0-server"
    ∧ (handleRawData zeroOracle
        (handleRawData zeroOracle (initOrch [] [] [] 80 24) (ascii "garbage-before-"))
        (ascii "SSH-2.0-server\r\nMORE")).connState.serverIdent
      = ascii "SSH-2.0-server" :=
  ⟨by decide, by decide, by decide, by decide, by decide⟩

end Ssh2Web
